import Mathlib

/-!
Verification of the PairQR session/signaling subsystem.

This file gives a shallow embedding of the server core of PairQR
(`src/server/routes.ts` and the `MemStorage` class of `src/server/storage.ts`)
and proves properties of it:

* the HMAC-SHA256 pairing-code signature service (`createSignature`,
  `verifySignature`), including a full executable model of SHA-256, HMAC and
  base64url so that signatures are concrete strings;
* the in-memory session store (`createSession`, `getSession`, `updateSession`,
  `deleteSession`, `cleanupExpiredSessions`, and the ephemeral peer-signaling
  blob maps);
* the WebSocket connection registry and relay router (`join-session`, the
  relay message kinds, the `close` handler).

Time is modelled as an explicit `Nat` of epoch milliseconds passed to each
operation (`new Date()` at the call site).  JavaScript `Map`s are modelled as
association lists preserving insertion order, matching `Map` iteration order.
Mutable `WebSocket` objects are modelled as a heap from connection identities
to their mutable fields, so aliasing between the registry and the sockets is
represented faithfully.
-/

namespace PairQR

/-! ## Byte-level primitives: UTF-8, SHA-256, HMAC, base64url

`Buffer.from(string)` in Node encodes the string as UTF-8, and
`createHmac('sha256', secret).update(data).digest('base64url')` computes
HMAC-SHA256 and encodes the 32-byte digest in unpadded base64url.  These are
modelled executably over `List Nat` byte lists (each entry < 256).
-/

/-- UTF-8 encoding of a single character, as its list of byte values. -/
def utf8Char (c : Char) : List Nat :=
  let n := c.toNat
  if n < 128 then [n]
  else if n < 2048 then [192 + n / 64, 128 + n % 64]
  else if n < 65536 then [224 + n / 4096, 128 + (n / 64) % 64, 128 + n % 64]
  else [240 + n / 262144, 128 + (n / 4096) % 64, 128 + (n / 64) % 64, 128 + n % 64]

/-- UTF-8 encoding of a list of characters. -/
def utf8L : List Char → List Nat
  | [] => []
  | c :: cs => utf8Char c ++ utf8L cs

/-- UTF-8 byte encoding of a string: the bytes of Node's `Buffer.from(s)`. -/
def utf8 (s : String) : List Nat := utf8L s.data

/-- Addition of 32-bit words modulo 2^32. -/
def add32 (a b : Nat) : Nat := (a + b) % 4294967296

/-- Right rotation of a 32-bit word by `n` bits. -/
def rotr (n x : Nat) : Nat :=
  (Nat.lor (x >>> n) (x <<< (32 - n))) % 4294967296

/-- The 64 SHA-256 round constants. -/
def shaK : List Nat :=
  [1116352408, 1899447441, 3049323471, 3921009573, 961987163, 1508970993, 2453635748, 2870763221,
   3624381080, 310598401, 607225278, 1426881987, 1925078388, 2162078206, 2614888103, 3248222580,
   3835390401, 4022224774, 264347078, 604807628, 770255983, 1249150122, 1555081692, 1996064986,
   2554220882, 2821834349, 2952996808, 3210313671, 3336571891, 3584528711, 113926993, 338241895,
   666307205, 773529912, 1294757372, 1396182291, 1695183700, 1986661051, 2177026350, 2456956037,
   2730485921, 2820302411, 3259730800, 3345764771, 3516065817, 3600352804, 4094571909, 275423344,
   430227734, 506948616, 659060556, 883997877, 958139571, 1322822218, 1537002063, 1747873779,
   1955562222, 2024104815, 2227730452, 2361852424, 2428436474, 2756734187, 3204031479, 3329325298]

/-- The SHA-256 initial hash value. -/
def shaH0 : List Nat :=
  [1779033703, 3144134277, 1013904242, 2773480762, 1359893119, 2600822924, 528734635, 1541459225]

/-- Splits a byte list into blocks of 64 bytes; the first argument is a fuel
bound that makes the recursion structural (and hence kernel-reducible). -/
def blocks64Go : Nat → List Nat → List (List Nat)
  | _, [] => []
  | 0, _ => []
  | n + 1, l => l.take 64 :: blocks64Go n (l.drop 64)

/-- Splits a byte list into blocks of 64 bytes. -/
def blocks64 (l : List Nat) : List (List Nat) := blocks64Go l.length l

/-- The 16 big-endian 32-bit words of a 64-byte block. -/
def words16 (b : List Nat) : List Nat :=
  (List.range 16).map (fun i =>
    b.getD (4 * i) 0 * 16777216 + b.getD (4 * i + 1) 0 * 65536 +
    b.getD (4 * i + 2) 0 * 256 + b.getD (4 * i + 3) 0)

/-- One step of the SHA-256 message-schedule extension. -/
def scheduleStep (w : List Nat) (i : Nat) : List Nat :=
  let x15 := w.getD (i - 15) 0
  let x2 := w.getD (i - 2) 0
  let s0 := Nat.xor (Nat.xor (rotr 7 x15) (rotr 18 x15)) (x15 >>> 3)
  let s1 := Nat.xor (Nat.xor (rotr 17 x2) (rotr 19 x2)) (x2 >>> 10)
  w ++ [(w.getD (i - 16) 0 + s0 + w.getD (i - 7) 0 + s1) % 4294967296]

/-- The 64-word SHA-256 message schedule of one block. -/
def schedule (b : List Nat) : List Nat :=
  (List.range' 16 48).foldl scheduleStep (words16 b)

/-- Working state of the SHA-256 compression function. -/
structure Hash8 where
  a : Nat
  b : Nat
  c : Nat
  d : Nat
  e : Nat
  f : Nat
  g : Nat
  h : Nat

/-- One round of the SHA-256 compression function. -/
def shaRound (w : List Nat) (st : Hash8) (i : Nat) : Hash8 :=
  let s1 := Nat.xor (Nat.xor (rotr 6 st.e) (rotr 11 st.e)) (rotr 25 st.e)
  let ch := Nat.xor (Nat.land st.e st.f) (Nat.land (4294967295 - st.e) st.g)
  let t1 := (st.h + s1 + ch + shaK.getD i 0 + w.getD i 0) % 4294967296
  let s0 := Nat.xor (Nat.xor (rotr 2 st.a) (rotr 13 st.a)) (rotr 22 st.a)
  let mj := Nat.xor (Nat.xor (Nat.land st.a st.b) (Nat.land st.a st.c)) (Nat.land st.b st.c)
  let t2 := (s0 + mj) % 4294967296
  ⟨(t1 + t2) % 4294967296, st.a, st.b, st.c, (st.d + t1) % 4294967296, st.e, st.f, st.g⟩

/-- The SHA-256 compression function applied to one 64-byte block. -/
def compress (h : List Nat) (b : List Nat) : List Nat :=
  let w := schedule b
  let st0 : Hash8 := ⟨h.getD 0 0, h.getD 1 0, h.getD 2 0, h.getD 3 0,
                      h.getD 4 0, h.getD 5 0, h.getD 6 0, h.getD 7 0⟩
  let st := (List.range 64).foldl (shaRound w) st0
  [add32 (h.getD 0 0) st.a, add32 (h.getD 1 0) st.b, add32 (h.getD 2 0) st.c,
   add32 (h.getD 3 0) st.d, add32 (h.getD 4 0) st.e, add32 (h.getD 5 0) st.f,
   add32 (h.getD 6 0) st.g, add32 (h.getD 7 0) st.h]

/-- SHA-256 padding of a byte message. -/
def shaPad (msg : List Nat) : List Nat :=
  let len := msg.length
  let k := (120 - (len + 1) % 64) % 64
  let bitLen := len * 8
  msg ++ [128] ++ List.replicate k 0 ++
    [(bitLen >>> 56) % 256, (bitLen >>> 48) % 256, (bitLen >>> 40) % 256, (bitLen >>> 32) % 256,
     (bitLen >>> 24) % 256, (bitLen >>> 16) % 256, (bitLen >>> 8) % 256, bitLen % 256]

/-- Serializes a list of 32-bit words to big-endian bytes. -/
def wordsToBytes (ws : List Nat) : List Nat :=
  ws.flatMap (fun w => [(w >>> 24) % 256, (w >>> 16) % 256, (w >>> 8) % 256, w % 256])

/-- SHA-256 of a byte message, as its 32-byte digest. -/
def sha256 (msg : List Nat) : List Nat :=
  wordsToBytes ((blocks64 (shaPad msg)).foldl compress shaH0)

/-- HMAC-SHA256 with the given key and message bytes (RFC 2104). -/
def hmacSha256 (key msg : List Nat) : List Nat :=
  let k0 := if 64 < key.length then sha256 key else key
  let kp := k0 ++ List.replicate (64 - k0.length) 0
  let ipad := kp.map (fun b => Nat.xor b 54)
  let opad := kp.map (fun b => Nat.xor b 92)
  sha256 (opad ++ sha256 (ipad ++ msg))

/-- The base64url alphabet. -/
def b64Alphabet : List Char :=
  "ABCDEFGHIJKLMNOPQRSTUVWXYZabcdefghijklmnopqrstuvwxyz0123456789-_".data

/-- The base64url digit for a 6-bit value. -/
def b64Digit (n : Nat) : Char := b64Alphabet.getD n 'A'

/-- Unpadded base64url encoding of a byte list, as Node's `digest('base64url')`
produces it. -/
def b64url : List Nat → List Char
  | [] => []
  | [b1] => [b64Digit (b1 / 4), b64Digit (b1 % 4 * 16)]
  | [b1, b2] => [b64Digit (b1 / 4), b64Digit (b1 % 4 * 16 + b2 / 16), b64Digit (b2 % 16 * 4)]
  | b1 :: b2 :: b3 :: rest =>
      b64Digit (b1 / 4) :: b64Digit (b1 % 4 * 16 + b2 / 16) ::
      b64Digit (b2 % 16 * 4 + b3 / 64) :: b64Digit (b3 % 64) :: b64url rest

/-! ## The signature service (`src/server/routes.ts`, lines 28-45) -/

/-- The server-held HMAC secret: `process.env.HMAC_SECRET` defaulting to
`"change-me-in-production"`. -/
def HMAC_SECRET : String := "change-me-in-production"

/-- The `SESSION_TTL_MINUTES` configuration, defaulting to 2. -/
def SESSION_TTL_MINUTES : Nat := 2

/-- Embeds `createSignature` of `routes.ts`:
`createHmac('sha256', HMAC_SECRET).update(data).digest('base64url')`. -/
def createSignature (data : String) : String :=
  String.mk (b64url (hmacSha256 (utf8 HMAC_SECRET) (utf8 data)))

/-- Embeds Node's `crypto.timingSafeEqual`, which compares two buffers
byte-for-byte but throws `ERR_CRYPTO_TIMING_SAFE_EQUAL_LENGTH` when the buffer
lengths differ.  The possible exception is modelled with `Except`. -/
def timingSafeEqual (a b : List Nat) : Except String Bool :=
  if a.length ≠ b.length then Except.error "ERR_CRYPTO_TIMING_SAFE_EQUAL_LENGTH"
  else Except.ok (a == b)

/-- Embeds `verifySignature` of `routes.ts`: recompute the expected signature,
build the two UTF-8 buffers, return `false` when their lengths differ, and
otherwise call `timingSafeEqual`.  The result is `Except.ok` of the boolean
unless an exception would escape. -/
def verifySignature (data signature : String) : Except String Bool :=
  let expectedSignature := createSignature data
  let expectedBuffer := utf8 expectedSignature
  let providedBuffer := utf8 signature
  if expectedBuffer.length ≠ providedBuffer.length then Except.ok false
  else timingSafeEqual expectedBuffer providedBuffer

/-! ## Injectivity of UTF-8 encoding

`verifySignature` compares UTF-8 buffers, so relating it to string equality
needs that the UTF-8 encoding is injective. -/

theorem char_toNat_lt (c : Char) : c.toNat < 1114112 := by
  have h := c.valid
  simp only [UInt32.isValidChar, Nat.isValidChar] at h
  rcases h with h | h
  · exact Nat.lt_trans h (by norm_num)
  · exact h.2

theorem char_eq_of_toNat_eq {c₁ c₂ : Char} (h : c₁.toNat = c₂.toNat) : c₁ = c₂ := by
  exact Char.ext (UInt32.ext h)

theorem utf8Char_eq1 {c : Char} (h : c.toNat < 128) : utf8Char c = [c.toNat] := by
  unfold utf8Char
  rw [if_pos h]

theorem utf8Char_eq2 {c : Char} (h1 : 128 ≤ c.toNat) (h2 : c.toNat < 2048) :
    utf8Char c = [192 + c.toNat / 64, 128 + c.toNat % 64] := by
  unfold utf8Char
  rw [if_neg (by omega), if_pos h2]

theorem utf8Char_eq3 {c : Char} (h1 : 2048 ≤ c.toNat) (h2 : c.toNat < 65536) :
    utf8Char c = [224 + c.toNat / 4096, 128 + (c.toNat / 64) % 64, 128 + c.toNat % 64] := by
  unfold utf8Char
  rw [if_neg (by omega), if_neg (by omega), if_pos h2]

theorem utf8Char_eq4 {c : Char} (h1 : 65536 ≤ c.toNat) :
    utf8Char c = [240 + c.toNat / 262144, 128 + (c.toNat / 4096) % 64,
                  128 + (c.toNat / 64) % 64, 128 + c.toNat % 64] := by
  unfold utf8Char
  rw [if_neg (by omega), if_neg (by omega), if_neg (by omega)]

theorem utf8Char_ne_nil (c : Char) : utf8Char c ≠ [] := by
  rcases Nat.lt_or_ge c.toNat 128 with h | h1
  · rw [utf8Char_eq1 h]
    simp
  rcases Nat.lt_or_ge c.toNat 2048 with h | h2
  · rw [utf8Char_eq2 h1 h]
    simp
  rcases Nat.lt_or_ge c.toNat 65536 with h | h3
  · rw [utf8Char_eq3 h2 h]
    simp
  · rw [utf8Char_eq4 h3]
    simp

theorem utf8Char_append_inj {c₁ c₂ : Char} {r₁ r₂ : List Nat}
    (h : utf8Char c₁ ++ r₁ = utf8Char c₂ ++ r₂) : c₁ = c₂ ∧ r₁ = r₂ := by
  have hv₁ := char_toNat_lt c₁
  have hv₂ := char_toNat_lt c₂
  have cases₁ : c₁.toNat < 128 ∨ (128 ≤ c₁.toNat ∧ c₁.toNat < 2048) ∨
      (2048 ≤ c₁.toNat ∧ c₁.toNat < 65536) ∨ 65536 ≤ c₁.toNat := by omega
  have cases₂ : c₂.toNat < 128 ∨ (128 ≤ c₂.toNat ∧ c₂.toNat < 2048) ∨
      (2048 ≤ c₂.toNat ∧ c₂.toNat < 65536) ∨ 65536 ≤ c₂.toNat := by omega
  rcases cases₁ with h₁ | ⟨h₁, h₁b⟩ | ⟨h₁, h₁b⟩ | h₁ <;>
    rcases cases₂ with h₂ | ⟨h₂, h₂b⟩ | ⟨h₂, h₂b⟩ | h₂
  all_goals first
    | (rw [utf8Char_eq1 h₁, utf8Char_eq1 h₂] at h
       simp only [List.cons_append, List.nil_append, List.cons.injEq] at h
       exact ⟨char_eq_of_toNat_eq (by omega), h.2⟩)
    | (rw [utf8Char_eq2 h₁ h₁b, utf8Char_eq2 h₂ h₂b] at h
       simp only [List.cons_append, List.nil_append, List.cons.injEq] at h
       exact ⟨char_eq_of_toNat_eq (by omega), h.2.2⟩)
    | (rw [utf8Char_eq3 h₁ h₁b, utf8Char_eq3 h₂ h₂b] at h
       simp only [List.cons_append, List.nil_append, List.cons.injEq] at h
       exact ⟨char_eq_of_toNat_eq (by omega), h.2.2.2⟩)
    | (rw [utf8Char_eq4 h₁, utf8Char_eq4 h₂] at h
       simp only [List.cons_append, List.nil_append, List.cons.injEq] at h
       exact ⟨char_eq_of_toNat_eq (by omega), h.2.2.2.2⟩)
    | (first
        | rw [utf8Char_eq1 h₁] at h
        | rw [utf8Char_eq2 h₁ h₁b] at h
        | rw [utf8Char_eq3 h₁ h₁b] at h
        | rw [utf8Char_eq4 h₁] at h
       first
        | rw [utf8Char_eq1 h₂] at h
        | rw [utf8Char_eq2 h₂ h₂b] at h
        | rw [utf8Char_eq3 h₂ h₂b] at h
        | rw [utf8Char_eq4 h₂] at h
       simp only [List.cons_append, List.nil_append, List.cons.injEq] at h
       exact absurd h.1 (by omega))

theorem utf8L_inj : ∀ {l₁ l₂ : List Char}, utf8L l₁ = utf8L l₂ → l₁ = l₂
  | [], [], _ => rfl
  | [], c :: cs, h => by
      exact absurd ((List.append_eq_nil).mp h.symm).1 (utf8Char_ne_nil c)
  | c :: cs, [], h => by
      exact absurd ((List.append_eq_nil).mp h).1 (utf8Char_ne_nil c)
  | c₁ :: cs₁, c₂ :: cs₂, h => by
      obtain ⟨hc, hr⟩ := utf8Char_append_inj h
      rw [hc, utf8L_inj hr]

theorem utf8_inj {s t : String} (h : utf8 s = utf8 t) : s = t :=
  String.ext (utf8L_inj h)

/-! ## JavaScript `Map`s as association lists

A JS `Map` iterates in insertion order; `set` on an existing key updates the
value in place, otherwise appends; `delete` removes the entry; `get` returns
the value or `undefined`.  Keys here are always strings. -/

/-- An insertion-ordered map, as the entry list of a JS `Map`. -/
abbrev AList (V : Type) := List (String × V)

/-- JS `Map.get`: the value stored under `k`, if any. -/
def aget {V : Type} : AList V → String → Option V
  | [], _ => none
  | e :: es, k => if e.1 = k then some e.2 else aget es k

/-- JS `Map.set`: update the entry in place if the key is present, else
append a new entry. -/
def aset {V : Type} : AList V → String → V → AList V
  | [], k, v => [(k, v)]
  | e :: es, k, v => if e.1 = k then (k, v) :: es else e :: aset es k v

/-- JS `Map.delete`: remove the entry stored under `k`. -/
def adel {V : Type} : AList V → String → AList V
  | [], _ => []
  | e :: es, k => if e.1 = k then adel es k else e :: adel es k

theorem aget_aset_self {V : Type} (m : AList V) (k : String) (v : V) :
    aget (aset m k v) k = some v := by
  induction m with
  | nil => simp [aget, aset]
  | cons a as ih =>
    by_cases ha : a.1 = k
    · simp [aget, aset, ha]
    · simp [aget, aset, ha, ih]

theorem aget_aset_ne {V : Type} (m : AList V) (k k' : String) (v : V) (h : k' ≠ k) :
    aget (aset m k v) k' = aget m k' := by
  have hkk : k ≠ k' := fun hc => h hc.symm
  induction m with
  | nil => simp [aget, aset, hkk]
  | cons a as ih =>
    by_cases ha : a.1 = k
    · have ha' : a.1 ≠ k' := fun hc => h (hc.symm.trans ha)
      simp [aget, aset, ha, ha', hkk]
    · by_cases ha' : a.1 = k'
      · simp [aget, aset, ha, ha', h]
      · simp [aget, aset, ha, ha', ih]

theorem aget_adel_self {V : Type} (m : AList V) (k : String) :
    aget (adel m k) k = none := by
  induction m with
  | nil => simp [aget, adel]
  | cons a as ih =>
    by_cases ha : a.1 = k
    · simp [adel, ha, ih]
    · simp [aget, adel, ha, ih]

theorem aget_adel_ne {V : Type} (m : AList V) (k k' : String) (h : k' ≠ k) :
    aget (adel m k) k' = aget m k' := by
  have hkk : k ≠ k' := fun hc => h hc.symm
  induction m with
  | nil => rfl
  | cons a as ih =>
    by_cases ha : a.1 = k
    · have ha' : a.1 ≠ k' := fun hc => h (hc.symm.trans ha)
      simp [aget, adel, ha, ha', hkk, ih]
    · by_cases ha' : a.1 = k'
      · simp [aget, adel, ha, ha', h]
      · simp [aget, adel, ha, ha', ih]

theorem adel_adel {V : Type} (m : AList V) (k : String) :
    adel (adel m k) k = adel m k := by
  induction m with
  | nil => rfl
  | cons a as ih =>
    by_cases ha : a.1 = k
    · simp [adel, ha, ih]
    · simp [adel, ha, ih]

theorem aget_mem {V : Type} {m : AList V} {k : String} {v : V}
    (h : aget m k = some v) : (k, v) ∈ m := by
  induction m with
  | nil => cases h
  | cons a as ih =>
    by_cases ha : a.1 = k
    · simp only [aget, ha, if_true] at h
      obtain rfl : a.2 = v := by injection h
      obtain ⟨a1, a2⟩ := a
      obtain rfl : a1 = k := ha
      exact List.mem_cons_self _ _
    · simp only [aget, ha, if_false] at h
      exact List.mem_cons_of_mem a (ih h)

/-! ## The session store (`MemStorage` in `src/server/storage.ts`)

Session records follow the `sessions` table shape of `schema.ts`:
`id`, `hostPublicKey`, `signature`, `expiresAt`, `createdAt`, `isActive`.
Timestamps are epoch milliseconds.  Ephemeral peer-signaling blob payloads are
opaque to the server and modelled as strings. -/

/-- A stored session record (`Session` of `schema.ts`). -/
structure Session where
  id : String
  hostPublicKey : String
  signature : String
  expiresAt : Nat
  createdAt : Nat
  isActive : String
deriving DecidableEq

/-- A session-creation argument (`InsertSession` of `schema.ts`: the session
shape without `createdAt`, with `isActive` optional). -/
structure InsertSession where
  id : String
  hostPublicKey : String
  signature : String
  expiresAt : Nat
  isActive : Option String := none
deriving DecidableEq

/-- A `Partial<Session>` update argument: every field optional. -/
structure SessionPatch where
  id : Option String := none
  hostPublicKey : Option String := none
  signature : Option String := none
  expiresAt : Option Nat := none
  createdAt : Option Nat := none
  isActive : Option String := none
deriving DecidableEq

/-- The object spread `{ ...session, ...updates }` for a `Partial<Session>`. -/
def mergeSession (s : Session) (p : SessionPatch) : Session :=
  { id := p.id.getD s.id
    hostPublicKey := p.hostPublicKey.getD s.hostPublicKey
    signature := p.signature.getD s.signature
    expiresAt := p.expiresAt.getD s.expiresAt
    createdAt := p.createdAt.getD s.createdAt
    isActive := p.isActive.getD s.isActive }

/-- The mutable state of a `MemStorage` instance: the `sessions` map and the
three ephemeral peer-signaling maps. -/
structure Storage where
  sessions : AList Session
  peerOffers : AList String
  peerAnswers : AList String
  iceCandidates : AList (List String)
deriving DecidableEq

/-- The state of a freshly constructed `MemStorage`. -/
def Storage.init : Storage := ⟨[], [], [], []⟩

namespace Storage

/-- Embeds `MemStorage.createSession`: spreads the insert argument, sets
`createdAt` to `new Date()` and defaults a falsy `isActive` to `"true"`. -/
def createSession (st : Storage) (s : InsertSession) (now : Nat) : Session × Storage :=
  let newSession : Session :=
    { id := s.id
      hostPublicKey := s.hostPublicKey
      signature := s.signature
      expiresAt := s.expiresAt
      createdAt := now
      isActive := match s.isActive with
        | some v => if v = "" then "true" else v
        | none => "true" }
  (newSession, { st with sessions := aset st.sessions s.id newSession })

/-- Embeds `MemStorage.getSession`: return the record while `expiresAt` is in
the future, and otherwise delete it lazily and return `undefined`. -/
def getSession (st : Storage) (id : String) (now : Nat) : Option Session × Storage :=
  match aget st.sessions id with
  | some session =>
      if now < session.expiresAt then (some session, st)
      else (none, { st with sessions := adel st.sessions id })
  | none => (none, st)

/-- Embeds `MemStorage.updateSession`: merge the partial fields into the
stored record, if present. -/
def updateSession (st : Storage) (id : String) (p : SessionPatch) :
    Option Session × Storage :=
  match aget st.sessions id with
  | some session =>
      let updatedSession := mergeSession session p
      (some updatedSession, { st with sessions := aset st.sessions id updatedSession })
  | none => (none, st)

/-- Embeds `MemStorage.clearPeerData`: drop the stored offer, answer and ICE
candidate list of the given session id. -/
def clearPeerData (st : Storage) (id : String) : Storage :=
  { st with
    peerOffers := adel st.peerOffers id,
    peerAnswers := adel st.peerAnswers id,
    iceCandidates := adel st.iceCandidates id }

/-- Embeds `MemStorage.deleteSession`: remove the record, then clear the
ephemeral peer data. -/
def deleteSession (st : Storage) (id : String) : Storage :=
  clearPeerData { st with sessions := adel st.sessions id } id

/-- Embeds `MemStorage.cleanupExpiredSessions`: collect the ids of sessions
with `expiresAt <= now`, then delete each and clear its peer data. -/
def cleanupExpiredSessions (st : Storage) (now : Nat) : Storage :=
  let sessionsToDelete := (st.sessions.filter (fun e => e.2.expiresAt ≤ now)).map (fun e => e.1)
  sessionsToDelete.foldl (fun acc id => clearPeerData { acc with sessions := adel acc.sessions id } id) st

/-- Embeds `MemStorage.storePeerOffer`. -/
def storePeerOffer (st : Storage) (id : String) (offer : String) : Storage :=
  { st with peerOffers := aset st.peerOffers id offer }

/-- Embeds `MemStorage.getPeerOffer`. -/
def getPeerOffer (st : Storage) (id : String) : Option String :=
  aget st.peerOffers id

/-- Embeds `MemStorage.storePeerAnswer`. -/
def storePeerAnswer (st : Storage) (id : String) (answer : String) : Storage :=
  { st with peerAnswers := aset st.peerAnswers id answer }

/-- Embeds `MemStorage.getPeerAnswer`. -/
def getPeerAnswer (st : Storage) (id : String) : Option String :=
  aget st.peerAnswers id

/-- Embeds `MemStorage.storeIceCandidate`: initialize the list if absent, then
push the candidate. -/
def storeIceCandidate (st : Storage) (id : String) (candidate : String) : Storage :=
  let updated := (aget st.iceCandidates id).getD [] ++ [candidate]
  { st with iceCandidates := aset st.iceCandidates id updated }

/-- Embeds `MemStorage.getIceCandidates`: the stored list, or `[]`. -/
def getIceCandidates (st : Storage) (id : String) : List String :=
  (aget st.iceCandidates id).getD []

end Storage

/-! ## The connection registry and relay router (`routes.ts`, lines 59-132)

Each live WebSocket is a mutable object carrying optional `sessionId` and
`clientId` fields and a ready state.  Sockets are identified by a `Nat`
(object identity, used by `client !== ws`), and their mutable fields live in a
heap `Nat → ConnSt`, so that the `connectedClients` map (clientId → socket)
aliases socket objects exactly as in JavaScript. -/

/-- The mutable fields of an `ExtendedWebSocket`. -/
structure ConnSt where
  sessionId : Option String := none
  clientId : Option String := none
  isOpen : Bool := true
deriving DecidableEq

/-- The relay server state: socket heap plus the `connectedClients` map. -/
structure Relay where
  heap : Nat → ConnSt
  clients : AList Nat

/-- The kinds relayed verbatim by the message switch. -/
inductive RelayKind where
  | webrtcOffer
  | webrtcAnswer
  | iceCandidate
  | keyExchange
deriving DecidableEq

/-- An inbound client message, after `JSON.parse` and the `switch` on
`message.type`; `raw` is the original wire text `data.toString()`. -/
inductive ClientMsg where
  | joinSession (sessionId clientId : String)
  | relayMsg (kind : RelayKind) (raw : String)
  | typing (isTyping : Bool)
deriving DecidableEq

/-- A server-to-client send: forwarded raw text or a constructed event. -/
inductive ServerMsg where
  | peerJoined (clientId : String)
  | peerLeft (clientId : String)
  | typing (isTyping : Bool)
  | raw (data : String)
deriving DecidableEq

/-- Embeds the `join-session` case: `connectedClients.set(clientId, ws)`, tag
`ws` with the session and client ids, then notify every other open connection
of the same session with a `peer-joined` event. -/
def handleJoin (r : Relay) (ws : Nat) (sessionId clientId : String) :
    Relay × List (Nat × ServerMsg) :=
  let clients1 := aset r.clients clientId ws
  let heap1 := fun c =>
    if c = ws then { r.heap ws with sessionId := some sessionId, clientId := some clientId }
    else r.heap c
  let sends := (clients1.filter (fun e =>
      e.2 != ws && ((heap1 e.2).sessionId == some sessionId) && (heap1 e.2).isOpen)).map
    (fun e => (e.2, ServerMsg.peerJoined clientId))
  (⟨heap1, clients1⟩, sends)

/-- Embeds the message switch of the `wss` connection handler. The four relay
cases (`webrtc-offer`, `webrtc-answer`, `ice-candidate`, `key-exchange`)
forward `data.toString()` unchanged to every other open connection of the
sender's session; `typing` forwards a normalized typing event the same way. -/
def handleMessage (r : Relay) (ws : Nat) (m : ClientMsg) :
    Relay × List (Nat × ServerMsg) :=
  match m with
  | ClientMsg.joinSession sessionId clientId => handleJoin r ws sessionId clientId
  | ClientMsg.relayMsg _ raw =>
      let sends := (r.clients.filter (fun e =>
          e.2 != ws && ((r.heap e.2).sessionId == (r.heap ws).sessionId) &&
          (r.heap e.2).isOpen)).map (fun e => (e.2, ServerMsg.raw raw))
      (r, sends)
  | ClientMsg.typing isTyping =>
      let sends := (r.clients.filter (fun e =>
          e.2 != ws && ((r.heap e.2).sessionId == (r.heap ws).sessionId) &&
          (r.heap e.2).isOpen)).map (fun e => (e.2, ServerMsg.typing isTyping))
      (r, sends)

/-- Embeds the `close` handler: when `ws.clientId` is truthy, delete that key
from `connectedClients` and send `peer-left` to every remaining open
connection whose `sessionId` equals `ws.sessionId`. -/
def handleClose (r : Relay) (ws : Nat) : Relay × List (Nat × ServerMsg) :=
  match (r.heap ws).clientId with
  | some cid =>
      if cid = "" then (r, [])
      else
        let clients1 := adel r.clients cid
        let sends := (clients1.filter (fun e =>
            ((r.heap e.2).sessionId == (r.heap ws).sessionId) && (r.heap e.2).isOpen)).map
          (fun e => (e.2, ServerMsg.peerLeft cid))
        ({ r with clients := clients1 }, sends)
  | none => (r, [])

/-! ## The session-creation route (`POST /api/sessions`, `routes.ts` 137-174)

The handler fixes `expiresAt = now + SESSION_TTL_MINUTES minutes`, stores the
session with a placeholder signature (`req.body.signature || 'temp-signature'`),
computes the QR assertion `"{id}|{hostPublicKey}|{expiresAtEpochMillis}"`,
signs it, and attaches the real signature with `updateSession`.  `freshId`
stands for the `randomUUID()` used when the request carries no id. -/

/-- The signed QR assertion of a session record, as built at `routes.ts` 157
and checked at `routes.ts` 223. -/
def sigMessage (s : Session) : String :=
  s.id ++ "|" ++ s.hostPublicKey ++ "|" ++ toString s.expiresAt

/-- Embeds the `POST /api/sessions` handler body (the storage-visible part):
returns the created record, the final signature, and the resulting store. -/
def createSessionRoute (st : Storage) (reqId : Option String) (freshId : String)
    (hostPublicKey : String) (reqSignature : Option String) (now : Nat) :
    Session × String × Storage :=
  let expiresAt := now + SESSION_TTL_MINUTES * 60000
  let sid := match reqId with
    | some i => if i = "" then freshId else i
    | none => freshId
  let sig0 := match reqSignature with
    | some s => if s = "" then "temp-signature" else s
    | none => "temp-signature"
  let sessionData : InsertSession :=
    { id := sid, hostPublicKey := hostPublicKey, signature := sig0,
      expiresAt := expiresAt, isActive := none }
  let res := Storage.createSession st sessionData now
  let qrData := sigMessage res.1
  let signature := createSignature qrData
  let res2 := Storage.updateSession res.2 res.1.id { signature := some signature }
  (res.1, signature, res2.2)

/-! ## Reachable store states

One step is one complete server-side operation on the store: a session
creation (which installs the final signature before the handler returns), a
read (with its lazy expiry deletion), an explicit deletion, a sweep, or a
peer-blob write.  `POST /api/sessions/:id/join` and `POST /api/verify-qr`
touch the store only through `getSession`, so they are `read` steps. -/

/-- One server-side operation on the session store. -/
inductive Step : Storage → Storage → Prop where
  | create (st : Storage) (reqId : Option String) (freshId hostPublicKey : String)
      (reqSignature : Option String) (now : Nat) :
      Step st (createSessionRoute st reqId freshId hostPublicKey reqSignature now).2.2
  | read (st : Storage) (id : String) (now : Nat) :
      Step st (Storage.getSession st id now).2
  | remove (st : Storage) (id : String) :
      Step st (Storage.deleteSession st id)
  | sweep (st : Storage) (now : Nat) :
      Step st (Storage.cleanupExpiredSessions st now)
  | putOffer (st : Storage) (id offer : String) :
      Step st (Storage.storePeerOffer st id offer)
  | putAnswer (st : Storage) (id answer : String) :
      Step st (Storage.storePeerAnswer st id answer)
  | putIce (st : Storage) (id candidate : String) :
      Step st (Storage.storeIceCandidate st id candidate)

/-- Store states reachable from a fresh `MemStorage` by server operations. -/
def Reachable (st : Storage) : Prop :=
  Relation.ReflTransGen Step Storage.init st

/-- The signature invariant: every stored session sits under its own id and
carries the HMAC signature of its current `"{id}|{hostPublicKey}|{expiresAt}"`
assertion. -/
def SigInv (st : Storage) : Prop :=
  ∀ k s, aget st.sessions k = some s →
    k = s.id ∧ s.signature = createSignature (sigMessage s)

theorem sigInv_of_adel {st : Storage} (h : SigInv st) (id : String) :
    SigInv { st with sessions := adel st.sessions id } := by
  intro k s hk
  by_cases hki : k = id
  · subst hki
    rw [aget_adel_self] at hk
    cases hk
  · rw [aget_adel_ne _ _ _ hki] at hk
    exact h k s hk

theorem sigInv_clearPeerData {st : Storage} (h : SigInv st) (id : String) :
    SigInv (Storage.clearPeerData st id) := h

theorem sigInv_deleteSession {st : Storage} (h : SigInv st) (id : String) :
    SigInv (Storage.deleteSession st id) :=
  sigInv_clearPeerData (sigInv_of_adel h id) id

theorem sigInv_foldl_delete {ids : List String} :
    ∀ {st : Storage}, SigInv st →
      SigInv (ids.foldl
        (fun acc id => Storage.clearPeerData { acc with sessions := adel acc.sessions id } id)
        st) := by
  induction ids with
  | nil => intro st h; exact h
  | cons i is ih =>
    intro st h
    exact ih (sigInv_clearPeerData (sigInv_of_adel h i) i)

theorem sigInv_getSession {st : Storage} (h : SigInv st) (id : String) (now : Nat) :
    SigInv (Storage.getSession st id now).2 := by
  unfold Storage.getSession
  cases hg : aget st.sessions id with
  | none => exact h
  | some s =>
    by_cases ht : now < s.expiresAt
    · simpa [ht] using h
    · simpa [ht] using sigInv_of_adel h id

theorem updateSession_found {st : Storage} {id : String} {s : Session}
    (h : aget st.sessions id = some s) (p : SessionPatch) :
    Storage.updateSession st id p =
      (some (mergeSession s p), { st with sessions := aset st.sessions id (mergeSession s p) }) := by
  unfold Storage.updateSession
  rw [h]

theorem updateSession_missing {st : Storage} {id : String}
    (h : aget st.sessions id = none) (p : SessionPatch) :
    Storage.updateSession st id p = (none, st) := by
  unfold Storage.updateSession
  rw [h]

theorem getSession_live {st : Storage} {id : String} {s : Session} {now : Nat}
    (h : aget st.sessions id = some s) (ht : now < s.expiresAt) :
    Storage.getSession st id now = (some s, st) := by
  unfold Storage.getSession
  rw [h]
  simp [ht]

theorem getSession_expired {st : Storage} {id : String} {s : Session} {now : Nat}
    (h : aget st.sessions id = some s) (ht : ¬ now < s.expiresAt) :
    Storage.getSession st id now = (none, { st with sessions := adel st.sessions id }) := by
  unfold Storage.getSession
  rw [h]
  simp [ht]

theorem getSession_missing {st : Storage} {id : String} {now : Nat}
    (h : aget st.sessions id = none) :
    Storage.getSession st id now = (none, st) := by
  unfold Storage.getSession
  rw [h]

set_option maxHeartbeats 400000 in
theorem sigInv_updateSig {st : Storage} (h : SigInv st) (ns : Session) (sig : String)
    (hsig : sig = createSignature (sigMessage ns)) :
    SigInv (Storage.updateSession { st with sessions := aset st.sessions ns.id ns }
      ns.id { signature := some sig }).2 := by
  have hget : aget ({ st with sessions := aset st.sessions ns.id ns } : Storage).sessions ns.id
      = some ns := aget_aset_self _ _ _
  have heq := updateSession_found hget ({ signature := some sig } : SessionPatch)
  rw [heq]
  intro k s hk
  simp only at hk
  by_cases hk1 : k = ns.id
  · subst hk1
    rw [aget_aset_self] at hk
    obtain rfl : _ = s := Option.some.inj hk
    constructor
    · dsimp only [mergeSession, Option.getD]
    · have hmsg : sigMessage (mergeSession ns { signature := some sig }) = sigMessage ns := by
        dsimp only [mergeSession, Option.getD, sigMessage]
      rw [hmsg]
      dsimp only [mergeSession, Option.getD]
      exact hsig
  · rw [aget_aset_ne _ _ _ _ hk1, aget_aset_ne _ _ _ _ hk1] at hk
    exact h k s hk

/-- The session record constructed by the `POST /api/sessions` handler before
it is re-signed. -/
def routeSession (reqId : Option String) (freshId hostPublicKey : String)
    (reqSignature : Option String) (now : Nat) : Session :=
  { id := match reqId with
      | some i => if i = "" then freshId else i
      | none => freshId
    hostPublicKey := hostPublicKey
    signature := match reqSignature with
      | some s => if s = "" then "temp-signature" else s
      | none => "temp-signature"
    expiresAt := now + SESSION_TTL_MINUTES * 60000
    createdAt := now
    isActive := "true" }

set_option maxHeartbeats 400000 in
theorem sigInv_create {st : Storage} (h : SigInv st) (reqId : Option String)
    (freshId hostPublicKey : String) (reqSignature : Option String) (now : Nat) :
    SigInv (createSessionRoute st reqId freshId hostPublicKey reqSignature now).2.2 := by
  dsimp only [createSessionRoute, Storage.createSession]
  exact sigInv_updateSig h (routeSession reqId freshId hostPublicKey reqSignature now) _ rfl

/-- The signature invariant holds in every reachable store state. -/
theorem sigInv_reachable {st : Storage} (h : Reachable st) : SigInv st := by
  induction h with
  | refl =>
    intro k s hk
    cases hk
  | tail _ hstep ih =>
    cases hstep with
    | create reqId freshId hostPublicKey reqSignature now =>
        exact sigInv_create ih reqId freshId hostPublicKey reqSignature now
    | read id now => exact sigInv_getSession ih id now
    | remove id => exact sigInv_deleteSession ih id
    | sweep now => exact sigInv_foldl_delete ih
    | putOffer id offer => exact ih
    | putAnswer id answer => exact ih
    | putIce id candidate => exact ih

/-! ## Concrete fixtures used by witnesses and counterexamples -/

/-- A sample stored session: created at 7, expiring at 100. -/
def sampleSession : Session :=
  { id := "s1", hostPublicKey := "pk", signature := "sig",
    expiresAt := 100, createdAt := 7, isActive := "true" }

/-- A store holding only `sampleSession`. -/
def sampleStore : Storage := ⟨[("s1", sampleSession)], [], [], []⟩

/-- A session whose ttl is 5 ms from its creation at 0. -/
def ttlSession : Session :=
  { id := "s2", hostPublicKey := "pk2", signature := "sig2",
    expiresAt := 5, createdAt := 0, isActive := "true" }

/-- A store holding `ttlSession` together with all three kinds of ephemeral
peer-signaling blobs under its id. -/
def ttlStore : Storage :=
  ⟨[("s2", ttlSession)], [("s2", "offerX")], [("s2", "answerY")], [("s2", ["candZ"])]⟩

/-! ## Claims about the session store -/

/-- C2: a session stored with `expiresAt = createdAt + T` is returned by
`getSession` at every query time strictly before `createdAt + T`, with the
store untouched; at or after that instant `getSession` returns `none` and
deletes the record, so no caller observes an expired session as valid. -/
theorem C2_get_ttl_boundary (st : Storage) (id : String) (s : Session) (T now : Nat)
    (hmem : aget st.sessions id = some s) (httl : s.expiresAt = s.createdAt + T) :
    (now < s.createdAt + T → Storage.getSession st id now = (some s, st)) ∧
    (s.createdAt + T ≤ now →
      Storage.getSession st id now = (none, { st with sessions := adel st.sessions id })) := by
  constructor
  · intro h
    exact getSession_live hmem (by omega)
  · intro h
    exact getSession_expired hmem (by omega)

/-- C2 witness: the boundary facts instantiated on a concrete store at the
exact expiry instant. -/
theorem C2_get_ttl_boundary_witness :
    (5 < ttlSession.createdAt + 5 →
      Storage.getSession ttlStore "s2" 5 = (some ttlSession, ttlStore)) ∧
    (ttlSession.createdAt + 5 ≤ 5 →
      Storage.getSession ttlStore "s2" 5 =
        (none, { ttlStore with sessions := adel ttlStore.sessions "s2" })) :=
  C2_get_ttl_boundary ttlStore "s2" ttlSession 5 5 (by decide) (by decide)

/-- C7: `deleteSession` removes the session record and all three kinds of
ephemeral signaling blobs, and a second `deleteSession` of the same id leaves
the store exactly unchanged. -/
theorem C7_delete_idempotent_and_clears (st : Storage) (id : String) :
    Storage.getPeerOffer (Storage.deleteSession st id) id = none ∧
    Storage.getPeerAnswer (Storage.deleteSession st id) id = none ∧
    Storage.getIceCandidates (Storage.deleteSession st id) id = [] ∧
    aget (Storage.deleteSession st id).sessions id = none ∧
    Storage.deleteSession (Storage.deleteSession st id) id = Storage.deleteSession st id := by
  unfold Storage.deleteSession Storage.clearPeerData Storage.getPeerOffer
    Storage.getPeerAnswer Storage.getIceCandidates
  refine ⟨?_, ?_, ?_, ?_, ?_⟩
  · exact aget_adel_self _ _
  · exact aget_adel_self _ _
  · simp [Storage.getIceCandidates, aget_adel_self]
  · exact aget_adel_self _ _
  · simp [adel_adel]

/-- C8 counterexample: `updateSession` with a partial-fields argument that
itself contains `createdAt` overwrites the stored `createdAt`, so the claim
as universally quantified over all partial-fields arguments is false. -/
theorem C8_counterexample :
    aget (Storage.updateSession sampleStore "s1" { createdAt := some 999 }).2.sessions "s1"
      = some { sampleSession with createdAt := 999 } ∧
    sampleSession.createdAt ≠ 999 := by decide

/-- C8 (amended): for an existing id, `updateSession` merges the given fields
into the stored record, and it leaves `createdAt` unchanged whenever the
partial-fields argument does not itself contain a `createdAt` field. -/
theorem C8_update_merges (st : Storage) (id : String) (s : Session) (p : SessionPatch)
    (hmem : aget st.sessions id = some s) :
    Storage.updateSession st id p =
      (some (mergeSession s p),
       { st with sessions := aset st.sessions id (mergeSession s p) }) ∧
    (p.createdAt = none → (mergeSession s p).createdAt = s.createdAt) := by
  refine ⟨updateSession_found hmem p, ?_⟩
  intro hp
  simp [mergeSession, hp]

/-- The signature-attaching patch shape actually used by the route. -/
def samplePatch : SessionPatch := { signature := some "better-sig" }

/-- The result of merging `samplePatch` into `sampleSession`. -/
def patchedSample : Session := mergeSession sampleSession samplePatch

/-- C8 witness: the amended claim instantiated on a concrete store with the
signature-attaching patch actually used by the route. -/
theorem C8_update_merges_witness :
    Storage.updateSession sampleStore "s1" samplePatch =
      (some patchedSample,
       { sampleStore with sessions := aset sampleStore.sessions "s1" patchedSample }) ∧
    (samplePatch.createdAt = none → patchedSample.createdAt = sampleSession.createdAt) :=
  C8_update_merges sampleStore "s1" sampleSession samplePatch (by decide)

/-- C9: when `getSession` lazily deletes an expired session it does not clear
the ephemeral signaling blobs: all three blob maps are exactly unchanged and
the blobs stay retrievable under the session id, until an explicit
`deleteSession` removes them. -/
theorem C9_lazy_expiry_keeps_blobs (st : Storage) (id : String) (s : Session) (now : Nat)
    (hmem : aget st.sessions id = some s) (hexp : s.expiresAt ≤ now) :
    (Storage.getSession st id now).1 = none ∧
    (Storage.getSession st id now).2.peerOffers = st.peerOffers ∧
    (Storage.getSession st id now).2.peerAnswers = st.peerAnswers ∧
    (Storage.getSession st id now).2.iceCandidates = st.iceCandidates ∧
    Storage.getPeerOffer (Storage.getSession st id now).2 id = Storage.getPeerOffer st id ∧
    Storage.getPeerAnswer (Storage.getSession st id now).2 id = Storage.getPeerAnswer st id ∧
    Storage.getIceCandidates (Storage.getSession st id now).2 id
      = Storage.getIceCandidates st id ∧
    Storage.getPeerOffer (Storage.deleteSession (Storage.getSession st id now).2 id) id
      = none := by
  have h : Storage.getSession st id now = (none, { st with sessions := adel st.sessions id }) :=
    getSession_expired hmem (by omega)
  rw [h]
  refine ⟨rfl, rfl, rfl, rfl, rfl, rfl, rfl, ?_⟩
  unfold Storage.deleteSession Storage.clearPeerData Storage.getPeerOffer
  exact aget_adel_self _ _

/-- C9 witness: an expired session with stored offer, answer and candidates;
the lazy deletion leaves all three retrievable. -/
theorem C9_lazy_expiry_keeps_blobs_witness :
    (Storage.getSession ttlStore "s2" 10).1 = none ∧
    (Storage.getSession ttlStore "s2" 10).2.peerOffers = ttlStore.peerOffers ∧
    (Storage.getSession ttlStore "s2" 10).2.peerAnswers = ttlStore.peerAnswers ∧
    (Storage.getSession ttlStore "s2" 10).2.iceCandidates = ttlStore.iceCandidates ∧
    Storage.getPeerOffer (Storage.getSession ttlStore "s2" 10).2 "s2"
      = Storage.getPeerOffer ttlStore "s2" ∧
    Storage.getPeerAnswer (Storage.getSession ttlStore "s2" 10).2 "s2"
      = Storage.getPeerAnswer ttlStore "s2" ∧
    Storage.getIceCandidates (Storage.getSession ttlStore "s2" 10).2 "s2"
      = Storage.getIceCandidates ttlStore "s2" ∧
    Storage.getPeerOffer (Storage.deleteSession (Storage.getSession ttlStore "s2" 10).2 "s2") "s2"
      = none :=
  C9_lazy_expiry_keeps_blobs ttlStore "s2" ttlSession 10 (by decide) (by decide)

/-! ## Claims about the relay router and connection registry -/

/-- C4: a relay-kind message is delivered exactly to the connections that are
registered in `connectedClients`, are not the sender, share the sender's
`sessionId`, and are open; each such delivery carries the raw wire text
unchanged, and no client of a different session receives anything. -/
theorem C4_relay_verbatim_same_session (r : Relay) (ws : Nat) (k : RelayKind)
    (raw : String) (tgt : Nat) (msg : ServerMsg) :
    (tgt, msg) ∈ (handleMessage r ws (ClientMsg.relayMsg k raw)).2 ↔
      (msg = ServerMsg.raw raw ∧ tgt ≠ ws ∧ (∃ cid, (cid, tgt) ∈ r.clients) ∧
       (r.heap tgt).sessionId = (r.heap ws).sessionId ∧ (r.heap tgt).isOpen = true) := by
  unfold handleMessage
  constructor
  · intro hin
    obtain ⟨e, hef, heq⟩ := List.mem_map.mp hin
    obtain ⟨hem, hcond⟩ := List.mem_filter.mp hef
    simp only [Bool.and_eq_true, bne_iff_ne, ne_eq, beq_iff_eq] at hcond
    obtain ⟨⟨h1, h2⟩, h3⟩ := hcond
    cases heq
    refine ⟨rfl, h1, ⟨e.1, ?_⟩, h2, h3⟩
    simpa using hem
  · rintro ⟨hmsg, hne, ⟨cid, hmem⟩, hsid, hopen⟩
    subst hmsg
    apply List.mem_map.mpr
    refine ⟨(cid, tgt), List.mem_filter.mpr ⟨hmem, ?_⟩, rfl⟩
    simp [hne, hsid, hopen]

/-- A freshly started relay: no registered clients, every socket open and
untagged. -/
def relay0 : Relay := ⟨fun _ => {}, []⟩

/-- The result of socket 0 joining session `"S"` as client `"a"` on a fresh
relay. -/
def joinA : Relay × List (Nat × ServerMsg) :=
  handleMessage relay0 0 (ClientMsg.joinSession "S" "a")

/-- The result of socket 1 then joining session `"S"` as client `"b"`. -/
def joinB : Relay × List (Nat × ServerMsg) :=
  handleMessage joinA.1 1 (ClientMsg.joinSession "S" "b")

/-- C6 counterexample: after client `"a"` joins session `"S"` and then client
`"b"` joins the same session, the later joiner receives no `peer-joined`
event at all (only the earlier joiner is notified), so the two clients do not
both receive each other's `peer-joined` exactly once. -/
theorem C6_counterexample :
    (joinA.2 ++ joinB.2).count (1, ServerMsg.peerJoined "a") = 0 ∧
    (joinA.2 ++ joinB.2).count (0, ServerMsg.peerJoined "b") = 1 := by
  decide

/-- C6 (amended): when two sockets join the same session of a previously
client-less relay with distinct client ids, the earlier joiner receives
exactly one `peer-joined` event, carrying the later joiner's client id, and
the later joiner receives no event. -/
theorem C6_second_joiner_unnotified (r0 : Relay) (wsA wsB : Nat) (S a b : String)
    (hempty : r0.clients = []) (hopenA : (r0.heap wsA).isOpen = true)
    (hne : wsA ≠ wsB) (hab : a ≠ b) :
    (handleMessage r0 wsA (ClientMsg.joinSession S a)).2 = [] ∧
    (handleMessage (handleMessage r0 wsA (ClientMsg.joinSession S a)).1 wsB
        (ClientMsg.joinSession S b)).2 = [(wsA, ServerMsg.peerJoined b)] := by
  unfold handleMessage handleJoin
  rw [hempty]
  constructor
  · simp [aset]
  · simp [aset, hab, hne, Ne.symm hne, hopenA]

/-- C6 witness: the amended behaviour on the concrete two-join scenario. -/
theorem C6_second_joiner_unnotified_witness :
    (handleMessage relay0 0 (ClientMsg.joinSession "S" "a")).2 = [] ∧
    (handleMessage (handleMessage relay0 0 (ClientMsg.joinSession "S" "a")).1 1
        (ClientMsg.joinSession "S" "b")).2 = [(0, ServerMsg.peerJoined "b")] :=
  C6_second_joiner_unnotified relay0 0 1 "S" "a" "b" rfl rfl (by decide) (by decide)

/-- C10: the registry is keyed by clientId alone, across sessions: a second
socket joining any session with an already-used clientId replaces the first
socket's registry entry, and a subsequent close of the first socket deletes
the entry now owned by the second socket. -/
theorem C10_registry_global_clientId (r0 : Relay) (wsA wsB : Nat) (S1 S2 c : String)
    (hne : wsA ≠ wsB) (hc : c ≠ "") :
    aget (handleMessage (handleMessage r0 wsA (ClientMsg.joinSession S1 c)).1 wsB
        (ClientMsg.joinSession S2 c)).1.clients c = some wsB ∧
    aget (handleClose (handleMessage (handleMessage r0 wsA (ClientMsg.joinSession S1 c)).1 wsB
        (ClientMsg.joinSession S2 c)).1 wsA).1.clients c = none := by
  unfold handleMessage handleJoin handleClose
  constructor
  · exact aget_aset_self _ _ _
  · simp [hne, hc, aget_adel_self]

/-- C10 witness: the replacement and deletion on concrete sockets 0 and 1
joining sessions `"S1"` and `"S2"` with the shared client id `"c"`. -/
theorem C10_registry_global_clientId_witness :
    aget (handleMessage (handleMessage relay0 0 (ClientMsg.joinSession "S1" "c")).1 1
        (ClientMsg.joinSession "S2" "c")).1.clients "c" = some 1 ∧
    aget (handleClose (handleMessage (handleMessage relay0 0
        (ClientMsg.joinSession "S1" "c")).1 1 (ClientMsg.joinSession "S2" "c")).1 0).1.clients "c"
      = none :=
  C10_registry_global_clientId relay0 0 1 "S1" "S2" "c" (by decide) (by decide)

/-! ## Claims about the signature service -/

/-- C1: verifying a message against its own signature succeeds, and verifying
it against any other candidate signature string (for example one differing in
a single bit) fails. -/
theorem C1_sign_verify (m s : String) (hs : s ≠ createSignature m) :
    verifySignature m (createSignature m) = Except.ok true ∧
    verifySignature m s = Except.ok false := by
  constructor
  · unfold verifySignature timingSafeEqual
    simp
  · unfold verifySignature timingSafeEqual
    by_cases hl : (utf8 (createSignature m)).length = (utf8 s).length
    · have hne : (utf8 (createSignature m) == utf8 s) = false := by
        refine beq_eq_false_iff_ne.mpr ?_
        intro hc
        exact hs (utf8_inj hc).symm
      simp [hl, hne]
    · simp [hl]

/-- The signature of `"hello"` with its first character flipped by one bit
(`H`, 0x48, becomes `I`, 0x49). -/
def flippedSig : String := "IOzWLejPJGXuKFWV-kjlW5mlpfFU5Zmzf0_EnHXyQl8"

set_option maxRecDepth 100000 in
/-- C1 witness: the round trip and the one-bit-flip rejection evaluated on the
concrete message `"hello"`. -/
theorem C1_sign_verify_witness :
    flippedSig ≠ createSignature "hello" ∧
    (verifySignature "hello" (createSignature "hello") = Except.ok true ∧
     verifySignature "hello" flippedSig = Except.ok false) :=
  have h : flippedSig ≠ createSignature "hello" := by decide
  ⟨h, C1_sign_verify "hello" flippedSig h⟩

/-- C5: `verifySignature` always returns an `ok` boolean (never an
exception), and when the two buffers' byte lengths differ it returns `false`
up front - the very call to `timingSafeEqual` that the guard skips would have
thrown on those buffers. -/
theorem C5_verify_never_throws (m s : String) :
    (∃ b, verifySignature m s = Except.ok b) ∧
    ((utf8 (createSignature m)).length ≠ (utf8 s).length →
      verifySignature m s = Except.ok false ∧
      timingSafeEqual (utf8 (createSignature m)) (utf8 s)
        = Except.error "ERR_CRYPTO_TIMING_SAFE_EQUAL_LENGTH") := by
  constructor
  · by_cases hl : (utf8 (createSignature m)).length = (utf8 s).length
    · refine ⟨(utf8 (createSignature m) == utf8 s), ?_⟩
      unfold verifySignature timingSafeEqual
      simp [hl]
    · refine ⟨false, ?_⟩
      unfold verifySignature
      simp [hl]
  · intro hl
    constructor
    · unfold verifySignature
      simp [hl]
    · unfold timingSafeEqual
      simp [hl]

/-- C5 witness: the totality and length-guard facts instantiated on a
mismatched-length pair. -/
theorem C5_verify_never_throws_witness :
    (∃ b, verifySignature "abc" "x" = Except.ok b) ∧
    ((utf8 (createSignature "abc")).length ≠ (utf8 "x").length →
      verifySignature "abc" "x" = Except.ok false ∧
      timingSafeEqual (utf8 (createSignature "abc")) (utf8 "x")
        = Except.error "ERR_CRYPTO_TIMING_SAFE_EQUAL_LENGTH") :=
  C5_verify_never_throws "abc" "x"

/-! ## The signature invariant claim -/

/-- C3: in every store state reachable by server operations, every stored
session sits under its own id and its `signature` field is the HMAC signature
of the assertion `"{id}|{hostPublicKey}|{expiresAtEpochMillis}"` built from
that session's current fields; no operation sequence leaves a stale or
placeholder signature standing. -/
theorem C3_signature_invariant (st : Storage) (h : Reachable st) (k : String)
    (s : Session) (hmem : aget st.sessions k = some s) :
    k = s.id ∧ s.signature = createSignature (sigMessage s) :=
  sigInv_reachable h k s hmem

/-- The store after one session creation at time 0 on a fresh server. -/
def c3State : Storage :=
  (createSessionRoute Storage.init (some "s1") "u0" "pk" none 0).2.2

/-- The record that creation stores: ttl 2 minutes from `now = 0`, signed
over `"s1|pk|120000"`. -/
def c3Session : Session :=
  { id := "s1", hostPublicKey := "pk", signature := createSignature "s1|pk|120000",
    expiresAt := 120000, createdAt := 0, isActive := "true" }

set_option maxRecDepth 100000 in
set_option maxHeartbeats 2000000 in
/-- C3 witness: the invariant read back from the concrete reachable state
after one creation step. -/
theorem C3_signature_invariant_witness :
    "s1" = c3Session.id ∧ c3Session.signature = createSignature (sigMessage c3Session) :=
  C3_signature_invariant c3State
    (Relation.ReflTransGen.single (Step.create Storage.init (some "s1") "u0" "pk" none 0))
    "s1" c3Session (by decide)

end PairQR
